import Mathlib

/-!
Verification of the cryptoAnalysis dashboard against its specification.

JavaScript strings are modelled as lists of characters (or Lean strings
where no character-level manipulation occurs); timestamps and machine
integers are modelled as `Int`/`Nat`; progress values as rationals; JSON
values and network responses as explicit sum types.  The task-scheduling
core described by the specification lives in the backend, whose sources
are not part of this tree; it is modelled from the specification text,
as marked on each such definition.
-/

namespace CryptoAnalysis

/-! ## Definitions: SymbolLink.tsx (getBybitUrl) -/

/-- Prefix of every Bybit spot-trading URL, from `getBybitUrl` in
`SymbolLink.tsx`. -/
def bybitBase : List Char := String.toList "https://www.bybit.com/trade/spot/"

/-- The quote-currency constant `quote = "USDT"` of `getBybitUrl`. -/
def quoteUSDT : List Char := String.toList "USDT"

/-- Model of JavaScript `s.endsWith(suffix)`: `suffix` is no longer than
`s` and the last `suffix.length` characters of `s` equal `suffix`. -/
def endsWithJS (s suff : List Char) : Bool :=
  decide (suff.length ≤ s.length) && decide (s.drop (s.length - suff.length) = suff)

/-- Embedding of `getBybitUrl` from `SymbolLink.tsx`: if the symbol ends
with `"USDT"` the URL is built from the base (the symbol with the last
four characters removed), a slash and the quote; otherwise the full
symbol is appended to the prefix. -/
def getBybitUrl (symbol : List Char) : List Char :=
  if endsWithJS symbol quoteUSDT then
    bybitBase ++ symbol.take (symbol.length - quoteUSDT.length) ++ ('/' :: quoteUSDT)
  else
    bybitBase ++ symbol

/-! ## Definitions: AuthService (src/unnamed/part_000)

Only the three keys `auth_token`, `auth_time` and `user_info` of
`sessionStorage` are ever read or written by `AuthService`, so the
storage is modelled as a record with one optional field per key
(`none` models a key that is not present). -/

/-- Model of the `sessionStorage` slice used by `AuthService`. -/
structure SessionStorage where
  auth_token : Option String
  auth_time : Option String
  user_info : Option String
deriving DecidableEq

/-- JavaScript falsiness of a nullable string: `null` and the empty
string are falsy, every other string is truthy. -/
def falsy : Option String → Bool
  | none => true
  | some s => decide (s = "")

/-- Value of digit characters accumulated in base ten. -/
def digitsToNat (ds : List Char) : Nat :=
  ds.foldl (fun a c => a * 10 + (c.toNat - 48)) 0

/-- Leading-digit parse: `none` when the input does not start with a
digit (the `NaN` outcome of `parseInt`). -/
def parseDigits (cs : List Char) : Option Nat :=
  let ds := cs.takeWhile Char.isDigit
  if ds.isEmpty then none else some (digitsToNat ds)

/-- Model of JavaScript `parseInt(s, 10)`: leading whitespace is
skipped, an optional sign is consumed, then the longest digit prefix is
read; `none` models `NaN`. -/
def parseIntJS (cs : List Char) : Option Int :=
  let t := cs.dropWhile Char.isWhitespace
  match t with
  | '-' :: rest => (parseDigits rest).map (fun n => -(n : Int))
  | '+' :: rest => (parseDigits rest).map (fun n => (n : Int))
  | _ => (parseDigits t).map (fun n => (n : Int))

/-- The constant `SESSION_TIMEOUT = 180 * 24 * 60 * 60 * 1000` (180 days
in milliseconds) of `AuthService`. -/
def SESSION_TIMEOUT : Int := 180 * 24 * 60 * 60 * 1000

/-- Embedding of `AuthService.clearAuth`: removes all three stored
keys. -/
def clearAuth (_st : SessionStorage) : SessionStorage :=
  { auth_token := none, auth_time := none, user_info := none }

/-- Embedding of `AuthService.setAuth`: stores the token, the current
time rendered as a decimal string, and the serialized user info
(`JSON.stringify` is modelled as an abstract pairing of name and
email). -/
def setAuth (token : String) (name email : String) (now : Int) : SessionStorage :=
  { auth_token := some token
    auth_time := some (toString now)
    user_info := some (name ++ "/" ++ email) }

/-- Embedding of `AuthService.isAuthenticated`, returning the boolean
result together with the storage left behind (the expiry branch clears
the stored keys).  `NaN` comparisons in JavaScript are false, so a
timestamp that fails to parse falls through to the final
`return !!token`. -/
def isAuthenticated (st : SessionStorage) (now : Int) : Bool × SessionStorage :=
  if falsy st.auth_token || falsy st.auth_time then (false, st)
  else
    match parseIntJS (st.auth_time.getD "").toList with
    | none => (! falsy st.auth_token, st)
    | some t =>
      if SESSION_TIMEOUT < now - t then (false, clearAuth st)
      else (! falsy st.auth_token, st)

/-- Rendering of claim C8 exactly as stated: the result is `false` when
the token or the timestamp is absent from the storage (a `none` field);
when both are present the expiry check decides; otherwise the result is
`true`. -/
def isAuthenticatedClaimed (st : SessionStorage) (now : Int) : Bool × SessionStorage :=
  if st.auth_token.isNone || st.auth_time.isNone then (false, st)
  else
    match parseIntJS (st.auth_time.getD "").toList with
    | none => (true, st)
    | some t =>
      if SESSION_TIMEOUT < now - t then (false, clearAuth st)
      else (true, st)

/-! ## Definitions: AuthService.authenticate -/

/-- Outcome of the `fetch` call and subsequent `.json()` parses inside
`AuthService.authenticate`: the fetch may reject, or the response is ok
or not ok and its body parses to JSON (with optional `token` and
`message` string fields) or fails to parse. -/
inductive NetOutcome where
  | fetchThrow
  | okJson (token msg : Option String)
  | okBadJson
  | errJson (msg : Option String)
  | errBadJson
deriving DecidableEq

/-- Result record of `AuthService.authenticate`. -/
structure AuthResult where
  success : Bool
  error : Option String
  message : Option String
deriving DecidableEq

/-- Model of JavaScript `s.trim()`: whitespace removed from both
ends. -/
def trimJS (s : String) : String :=
  List.asString
    (((s.toList.dropWhile Char.isWhitespace).reverse.dropWhile Char.isWhitespace).reverse)

/-- Character class `[a-zA-Z0-9._%+-]` of the email pattern. -/
def isLocalChar (c : Char) : Bool :=
  c.isAlpha || c.isDigit || c == '.' || c == '_' || c == '%' || c == '+' || c == '-'

/-- Character class `[a-zA-Z0-9.-]` of the email pattern. -/
def isDomainChar (c : Char) : Bool :=
  c.isAlpha || c.isDigit || c == '.' || c == '-'

/-- Match of the tail `[a-zA-Z0-9.-]+\.[a-zA-Z]{2,}$` of the email
pattern against `cs`: some split puts a nonempty domain part before a
dot and at least two letters after it, reaching the end. -/
def domainTailMatch (cs : List Char) : Bool :=
  (List.range cs.length).any (fun i =>
    decide (1 ≤ i) && (cs.take i).all isDomainChar &&
    decide ((cs.drop i).head? = some '.') &&
    (decide (2 ≤ (cs.drop (i + 1)).length) && (cs.drop (i + 1)).all Char.isAlpha))

/-- Boolean match of the anchored email pattern
`^[a-zA-Z0-9._%+-]+@[a-zA-Z0-9.-]+\.[a-zA-Z]{2,}$` used by
`AuthService.authenticate`. -/
def emailPatternTest (cs : List Char) : Bool :=
  (List.range cs.length).any (fun i =>
    decide (1 ≤ i) && (cs.take i).all isLocalChar &&
    decide ((cs.drop i).head? = some '@') &&
    domainTailMatch (cs.drop (i + 1)))

/-- JavaScript `x || d` on an optional string producing a string:
a missing or empty value falls back to the default. -/
def orDefault (x : Option String) (d : String) : String :=
  match x with
  | none => d
  | some s => if s = "" then d else s

/-- Embedding of `AuthService.authenticate`.  The whole body runs in a
`try` block whose `catch` converts a rejected fetch or a failing
`.json()` into a network-error result, so the function is total.  The
network interaction is abstracted by the `net` oracle; when validation
fails the oracle is never consulted. -/
def authenticate (username email : String) (net : NetOutcome) (now : Int)
    (st : SessionStorage) : AuthResult × SessionStorage :=
  if trimJS username = "" then
    ({ success := false, error := some "用户名不能为空", message := none }, st)
  else if trimJS email = "" then
    ({ success := false, error := some "邮箱不能为空", message := none }, st)
  else if emailPatternTest (trimJS email).toList = false then
    ({ success := false, error := some "邮箱格式不正确", message := none }, st)
  else
    match net with
    | .fetchThrow =>
      ({ success := false, error := some "网络错误，请重试", message := none }, st)
    | .okBadJson =>
      ({ success := false, error := some "网络错误，请重试", message := none }, st)
    | .errBadJson =>
      ({ success := false, error := some "网络错误，请重试", message := none }, st)
    | .okJson token msg =>
      ({ success := true, error := none, message := some (orDefault msg "认证成功") },
       setAuth (orDefault token "authenticated") (trimJS username) (trimJS email) now)
    | .errJson msg =>
      ({ success := false, error := some (orDefault msg "认证失败"), message := none }, st)

/-- Validation tested by `authenticate` before any network access:
empty or whitespace-only username, empty or whitespace-only email, or
an email that fails the pattern. -/
def validationFails (username email : String) : Prop :=
  trimJS username = "" ∨ trimJS email = "" ∨ emailPatternTest (trimJS email).toList = false

/-- Network outcomes that the `catch` block converts into the
network-error result. -/
def netFails (net : NetOutcome) : Prop :=
  net = NetOutcome.fetchThrow ∨ net = NetOutcome.okBadJson ∨ net = NetOutcome.errBadJson

/-! ## Definitions: the task-scheduling core

Modelled from the spec: the backend scheduler (Task Registry, Task
Runner, Slot Manager, Scheduler Loop, Stop Controller) is not among the
sources of this tree — only its frontend callers are — so the following
definitions transcribe sections 3 to 4.6 of the specification. -/

/-- Modelled from the spec: the closed set of job kinds of a
TaskRecord, with one ad-hoc kind for on-demand jobs. -/
inductive JobType where
  | analysis
  | news_evaluation
  | signal_strategy
  | timeframe_review
  | adhoc
deriving DecidableEq

/-- Modelled from the spec: TaskRecord status,
`pending → running → (completed or failed or cancelled)`. -/
inductive Status where
  | pending
  | running
  | completed
  | failed
  | cancelled
deriving DecidableEq

/-- Terminal statuses are `completed`, `failed` and `cancelled`. -/
def Status.isTerminal : Status → Bool
  | .completed => true
  | .failed => true
  | .cancelled => true
  | .pending => false
  | .running => false

/-- Modelled from the spec: one TaskRecord per job execution attempt
(section 3 of the specification), with the cooperative cancellation
flag the Stop Controller sets. -/
structure TaskRecord where
  id : Nat
  type : JobType
  status : Status
  progress : Rat
  message : String
  created_at : Nat
  started_at : Option Nat
  completed_at : Option Nat
  result : Option String
  error : Option String
  cancel_requested : Bool
deriving DecidableEq

/-- Modelled from the spec: one SchedulerSlot per job type. -/
structure SchedulerSlot where
  enabled : Bool
  last_run_at : Option Nat
  next_run_at : Nat
  current_task_id : Option Nat
deriving DecidableEq

/-- Modelled from the spec: the scheduler state — the Task Registry (a
list of TaskRecords, newest first), the per-type slots and the next
fresh task identifier. -/
structure SchedState where
  registry : List TaskRecord
  slots : JobType → SchedulerSlot
  nextId : Nat

/-- Registry lookup `get(id)`, first record with the given id. -/
def findTask (s : SchedState) (id : Nat) : Option TaskRecord :=
  s.registry.find? (fun r => r.id == id)

/-- Status of the record with the given id, when present. -/
def taskStatus (s : SchedState) (id : Nat) : Option Status :=
  (findTask s id).map TaskRecord.status

/-- Error field of the record with the given id, when present. -/
def taskError (s : SchedState) (id : Nat) : Option (Option String) :=
  (findTask s id).map TaskRecord.error

/-- Modelled from the spec: a slot is occupied exactly when its
`current_task_id` resolves to a non-terminal TaskRecord. -/
def slotActive (s : SchedState) (ty : JobType) : Bool :=
  match (s.slots ty).current_task_id with
  | none => false
  | some id =>
    match findTask s id with
    | none => false
    | some r => ! r.status.isTerminal

/-- Modelled from the spec: the partial fields a registry `update` may
carry (an outer `none` leaves the field alone). -/
structure TaskUpdate where
  status : Option Status
  progress : Option Rat
  message : Option String
  started_at : Option (Option Nat)
  completed_at : Option (Option Nat)
  result : Option (Option String)
  error : Option (Option String)
deriving DecidableEq

/-- Modelled from the spec: applying partial fields to one record;
an update of a record whose status is terminal is discarded. -/
def applyUpdate (r : TaskRecord) (u : TaskUpdate) : TaskRecord :=
  if r.status.isTerminal then r
  else
    { r with
      status := u.status.getD r.status
      progress := u.progress.getD r.progress
      message := u.message.getD r.message
      started_at := u.started_at.getD r.started_at
      completed_at := u.completed_at.getD r.completed_at
      result := u.result.getD r.result
      error := u.error.getD r.error }

/-- Modelled from the spec: registry `update(id, partial-fields)`,
applied atomically to the record with the given id. -/
def updateTask (s : SchedState) (id : Nat) (u : TaskUpdate) : SchedState :=
  { s with registry := s.registry.map (fun r => if r.id = id then applyUpdate r u else r) }

/-- Clamp of a reported progress value to the interval from 0 to 1. -/
def clamp01 (q : Rat) : Rat :=
  if q ≤ 0 then 0 else if 1 ≤ q then 1 else q

/-- The larger of two progress values, used to reject backward
movement. -/
def progMax (a b : Rat) : Rat := if a ≤ b then b else a

/-- Rewrite the whole registry through a per-record function. -/
def mapTask (s : SchedState) (f : TaskRecord → TaskRecord) : SchedState :=
  { s with registry := s.registry.map f }

/-- Modelled from the spec: a progress report from the running job,
clamped to the unit interval and rejecting backward movement; it also
updates the status message. -/
def reportF (id : Nat) (p : Rat) (msg : String) (r : TaskRecord) : TaskRecord :=
  if r.id = id ∧ r.status = Status.running then
    { r with progress := progMax r.progress (clamp01 p), message := msg }
  else r

/-- Modelled from the spec: the Task Runner transitions a freshly
created record from `pending` to `running` and stamps `started_at`. -/
def beginF (id now : Nat) (r : TaskRecord) : TaskRecord :=
  if r.id = id ∧ r.status = Status.pending then
    { r with status := Status.running, started_at := some now }
  else r

/-- Modelled from the spec: normal completion of the running job sets
`completed` with the result payload and `completed_at`. -/
def completeF (id : Nat) (res : String) (now : Nat) (r : TaskRecord) : TaskRecord :=
  if r.id = id ∧ r.status = Status.running then
    { r with status := Status.completed, result := some res, completed_at := some now }
  else r

/-- Modelled from the spec: job failure is caught at the Task Runner
boundary and recorded as a terminal `failed` record. -/
def failF (id : Nat) (err : String) (now : Nat) (r : TaskRecord) : TaskRecord :=
  if r.id = id ∧ r.status = Status.running then
    { r with status := Status.failed, error := some err, completed_at := some now }
  else r

/-- Modelled from the spec: the Stop Controller sets the cooperative
cancellation flag of a running record. -/
def cancelFlagF (id : Nat) (r : TaskRecord) : TaskRecord :=
  if r.id = id ∧ r.status = Status.running then
    { r with cancel_requested := true }
  else r

/-- Modelled from the spec: a running job that observes its cancellation
flag exits cooperatively and the record becomes `cancelled`. -/
def observeCancelF (id now : Nat) (r : TaskRecord) : TaskRecord :=
  if r.id = id ∧ r.status = Status.running ∧ r.cancel_requested = true then
    { r with
      status := Status.cancelled
      error := some "cancelled by stop request"
      completed_at := some now }
  else r

/-- A started record whose maximum runtime has elapsed at `now`. -/
def timedOut (maxRuntime now : Nat) (r : TaskRecord) : Bool :=
  match r.started_at with
  | none => false
  | some t0 => decide (t0 + maxRuntime ≤ now)

/-- Modelled from the spec: the watchdog forcibly marks a non-terminal
record whose maximum runtime has elapsed as `failed` with a timeout
error. -/
def watchdogF (id maxRuntime now : Nat) (r : TaskRecord) : TaskRecord :=
  if r.id = id ∧ r.status.isTerminal = false ∧ timedOut maxRuntime now r = true then
    { r with status := Status.failed, error := some "timeout", completed_at := some now }
  else r

/-- Result of a start request through the Slot Manager. -/
inductive StartResult where
  | started (id : Nat)
  | alreadyRunning
deriving DecidableEq

/-- Modelled from the spec: registry `create(type)` produces a fresh
`pending` record with progress 0. -/
def newTask (id : Nat) (ty : JobType) (now : Nat) : TaskRecord :=
  { id := id, type := ty, status := Status.pending, progress := 0, message := "",
    created_at := now, started_at := none, completed_at := none,
    result := none, error := none, cancel_requested := false }

/-- Modelled from the spec: Slot Manager `try_start` — if the slot for
the type resolves to a non-terminal record the conflict result is
returned and nothing changes; otherwise a fresh record is created and
the slot records its id. -/
def tryStart (s : SchedState) (ty : JobType) (now : Nat) : StartResult × SchedState :=
  if slotActive s ty then (StartResult.alreadyRunning, s)
  else
    (StartResult.started s.nextId,
     { registry := newTask s.nextId ty now :: s.registry
       slots := Function.update s.slots ty
         { s.slots ty with current_task_id := some s.nextId }
       nextId := s.nextId + 1 })

/-- Modelled from the spec: one Scheduler Loop evaluation of one job
type — when the type is enabled, due and its slot idle, `try_start`
runs and the slot times advance (`nextAt` is the externally configured
recurrence instant); otherwise the trigger is skipped, not queued. -/
def tickType (s : SchedState) (ty : JobType) (now nextAt : Nat) : SchedState :=
  if (s.slots ty).enabled = true ∧ (s.slots ty).next_run_at ≤ now
      ∧ slotActive s ty = false then
    { (tryStart s ty now).2 with
      slots := Function.update (tryStart s ty now).2.slots ty
        { (tryStart s ty now).2.slots ty with
          last_run_at := some now
          next_run_at := nextAt } }
  else s

/-- Modelled from the spec: toggling the per-type enabled flag touches
nothing but that flag. -/
def setEnabledState (s : SchedState) (ty : JobType) (b : Bool) : SchedState :=
  { s with slots := Function.update s.slots ty { s.slots ty with enabled := b } }

/-- Result of a stop request through the Stop Controller. -/
inductive StopResult where
  | stopping (id : Nat)
  | nothingToStop
  | notFound
deriving DecidableEq

/-- Modelled from the spec: Stop Controller `stop(type)` — only a
running current task gets its cancellation flag set; an idle slot, a
dangling reference, a pending or terminal current task is nothing to
stop. -/
def stopByType (s : SchedState) (ty : JobType) : StopResult × SchedState :=
  match (s.slots ty).current_task_id with
  | none => (StopResult.nothingToStop, s)
  | some id =>
    match findTask s id with
    | none => (StopResult.nothingToStop, s)
    | some r =>
      if r.status = Status.running then (StopResult.stopping id, mapTask s (cancelFlagF id))
      else (StopResult.nothingToStop, s)

/-- Modelled from the spec: Stop Controller `stop(task_id)` — an unknown
id is not found; only a running record gets its flag set. -/
def stopById (s : SchedState) (id : Nat) : StopResult × SchedState :=
  match findTask s id with
  | none => (StopResult.notFound, s)
  | some r =>
    if r.status = Status.running then (StopResult.stopping id, mapTask s (cancelFlagF id))
    else (StopResult.nothingToStop, s)

/-- Modelled from the spec: the observable operations on the scheduler
state — automatic trigger, manual start, the Task Runner transitions,
progress reports, stop requests, cooperative cancellation, the watchdog
and the enabled toggle. -/
inductive Op where
  | tick (ty : JobType) (now nextAt : Nat)
  | manualStart (ty : JobType) (now : Nat)
  | beginExecution (id now : Nat)
  | report (id : Nat) (p : Rat) (msg : String)
  | complete (id : Nat) (res : String) (now : Nat)
  | jobFail (id : Nat) (err : String) (now : Nat)
  | stopType (ty : JobType)
  | stopTask (id : Nat)
  | observeCancel (id now : Nat)
  | watchdog (id maxRuntime now : Nat)
  | setEnabled (ty : JobType) (b : Bool)

/-- Effect of one observable operation on the scheduler state. -/
def applyOp (s : SchedState) : Op → SchedState
  | .tick ty now nextAt => tickType s ty now nextAt
  | .manualStart ty now => (tryStart s ty now).2
  | .beginExecution id now => mapTask s (beginF id now)
  | .report id p msg => mapTask s (reportF id p msg)
  | .complete id res now => mapTask s (completeF id res now)
  | .jobFail id err now => mapTask s (failF id err now)
  | .stopType ty => (stopByType s ty).2
  | .stopTask id => (stopById s id).2
  | .observeCancel id now => mapTask s (observeCancelF id now)
  | .watchdog id maxRuntime now => mapTask s (watchdogF id maxRuntime now)
  | .setEnabled ty b => setEnabledState s ty b

/-- The idle slot every type starts from. -/
def initSlot : SchedulerSlot :=
  { enabled := true, last_run_at := none, next_run_at := 0, current_task_id := none }

/-- The empty scheduler state at process start. -/
def initState : SchedState :=
  { registry := [], slots := fun _ => initSlot, nextId := 0 }

/-- States reachable from process start by observable operations. -/
inductive Reachable : SchedState → Prop where
  | init : Reachable initState
  | step (s : SchedState) (o : Op) : Reachable s → Reachable (applyOp s o)

/-- The scheduler-state invariant: record ids are pairwise distinct and
below the fresh counter, progress values lie in the unit interval, and
every non-terminal record is the one its slot points at. -/
def Inv (s : SchedState) : Prop :=
  s.registry.Pairwise (fun a b => a.id ≠ b.id)
  ∧ (∀ r ∈ s.registry, r.id < s.nextId)
  ∧ (∀ r ∈ s.registry, 0 ≤ r.progress ∧ r.progress ≤ 1)
  ∧ (∀ r ∈ s.registry, r.status.isTerminal = false →
      (s.slots r.type).current_task_id = some r.id)

/-- The records of one type with status `pending` or `running`. -/
def activeOfType (s : SchedState) (ty : JobType) : List TaskRecord :=
  s.registry.filter (fun r => r.type == ty && ! r.status.isTerminal)

/-- Conditions on a per-record rewrite under which the scheduler-state
invariant is preserved: ids and types are kept, progress never moves
backward and stays in the unit interval, and terminal records are left
untouched. -/
structure GoodF (f : TaskRecord → TaskRecord) : Prop where
  id_eq : ∀ r, (f r).id = r.id
  type_eq : ∀ r, (f r).type = r.type
  prog_mono : ∀ r, r.progress ≤ (f r).progress
  prog_bound : ∀ r, 0 ≤ r.progress → r.progress ≤ 1 →
    0 ≤ (f r).progress ∧ (f r).progress ≤ 1
  term_fix : ∀ r, r.status.isTerminal = true → f r = r

/-! ## Concrete demonstration states used by the witnesses -/

/-- State after one manual start of an analysis job at time 5: one
pending record with id 0. -/
def sDemo1 : SchedState := applyOp initState (Op.manualStart JobType.analysis 5)

/-- State after the Task Runner begins executing task 0 at time 6. -/
def sDemo2 : SchedState := applyOp sDemo1 (Op.beginExecution 0 6)

/-- State after task 0 completes normally at time 7. -/
def sDemo3 : SchedState := applyOp sDemo2 (Op.complete 0 "done" 7)

/-- The running record of `sDemo2`. -/
def rDemoRunning : TaskRecord :=
  { id := 0, type := JobType.analysis, status := Status.running, progress := 0,
    message := "", created_at := 5, started_at := some 6, completed_at := none,
    result := none, error := none, cancel_requested := false }

/-- The record of `sDemo2` after a progress report of one. -/
def rDemoReported : TaskRecord :=
  { rDemoRunning with progress := 1, message := "almost done" }

/-- The completed record of `sDemo3`. -/
def rDemoDone : TaskRecord :=
  { rDemoRunning with
    status := Status.completed
    result := some "done"
    completed_at := some 7 }

/-- The pending record of `sDemo1`. -/
def rDemoPending : TaskRecord := newTask 0 JobType.analysis 5

/-- The initial state with automatic analysis runs disabled. -/
def sDis : SchedState := setEnabledState initState JobType.analysis false

/-- A late update that tries to rewrite status, progress and message. -/
def uDemo : TaskUpdate :=
  { status := some Status.running, progress := some ((3 : Rat) / 4),
    message := some "late", started_at := none, completed_at := none,
    result := none, error := none }

/-! ## Theorems: SymbolLink.tsx -/

theorem endsWithJS_append (base : List Char) :
    endsWithJS (base ++ quoteUSDT) quoteUSDT = true := by
  simp [endsWithJS, quoteUSDT, List.drop_left]

theorem getBybitUrl_append (base : List Char) :
    getBybitUrl (base ++ quoteUSDT) =
      bybitBase ++ base ++ ('/' :: quoteUSDT) := by
  have h := endsWithJS_append base
  simp only [getBybitUrl, h, if_pos]
  have hlen : (base ++ quoteUSDT).length - quoteUSDT.length = base.length := by
    simp [List.length_append]
  rw [hlen, List.take_left, List.append_assoc]

/-- Claim C10: for every symbol ending in USDT, `getBybitUrl` returns
the Bybit spot prefix followed by the symbol with its trailing USDT
removed and then a slash and USDT; for every other symbol it returns
the prefix followed by the full symbol. -/
theorem claim_C10 :
    (∀ base : List Char,
      getBybitUrl (base ++ quoteUSDT) = bybitBase ++ base ++ ('/' :: quoteUSDT))
    ∧ (∀ symbol : List Char, endsWithJS symbol quoteUSDT = false →
        getBybitUrl symbol = bybitBase ++ symbol) := by
  constructor
  · exact getBybitUrl_append
  · intro symbol h
    simp [getBybitUrl, h]

/-- Witness for claim C10 at the symbols SOLUSDT and BTCDOM. -/
theorem claim_C10_witness :
    getBybitUrl (String.toList "SOL" ++ quoteUSDT) =
      bybitBase ++ String.toList "SOL" ++ ('/' :: quoteUSDT)
    ∧ getBybitUrl (String.toList "BTCDOM") = bybitBase ++ String.toList "BTCDOM" :=
  ⟨claim_C10.1 (String.toList "SOL"), claim_C10.2 (String.toList "BTCDOM") (by decide)⟩

/-! ## Theorems: AuthService.isAuthenticated -/

/-- Claim C8 counterexample: with a stored empty-string token and a
fresh timestamp the code returns false, while the claim as stated
(false only when a key is absent, true otherwise) requires true. -/
theorem claim_C8_counterexample :
    isAuthenticated ⟨some "", some "0", none⟩ 0 = (false, ⟨some "", some "0", none⟩)
    ∧ isAuthenticatedClaimed ⟨some "", some "0", none⟩ 0 =
        (true, ⟨some "", some "0", none⟩) := by
  exact ⟨by decide, by decide⟩

/-- Claim C8 as amended: `isAuthenticated` returns false when the token
or the timestamp is absent or empty (JavaScript-falsy); when both are
truthy and the parsed elapsed time exceeds the 180-day timeout it
removes all three stored keys and returns false; otherwise (including a
timestamp that fails to parse) it returns true. -/
theorem claim_C8 (st : SessionStorage) (now : Int) :
    (clearAuth st = { auth_token := none, auth_time := none, user_info := none })
    ∧ (falsy st.auth_token = true ∨ falsy st.auth_time = true →
        isAuthenticated st now = (false, st))
    ∧ (∀ t : Int, falsy st.auth_token = false → falsy st.auth_time = false →
        parseIntJS (st.auth_time.getD "").toList = some t →
        (SESSION_TIMEOUT < now - t → isAuthenticated st now = (false, clearAuth st))
        ∧ (now - t ≤ SESSION_TIMEOUT → isAuthenticated st now = (true, st)))
    ∧ (falsy st.auth_token = false → falsy st.auth_time = false →
        parseIntJS (st.auth_time.getD "").toList = none →
        isAuthenticated st now = (true, st)) := by
  refine ⟨rfl, ?_, ?_, ?_⟩
  · intro h
    rcases h with h | h <;> simp [isAuthenticated, h]
  · intro t htok htime hp
    simp only [String.toList] at hp
    constructor
    · intro hlt
      simp [isAuthenticated, htok, htime, hp, hlt]
    · intro hle
      simp [isAuthenticated, htok, htime, hp, not_lt.mpr hle]
  · intro htok htime hp
    simp only [String.toList] at hp
    simp [isAuthenticated, htok, htime, hp]

/-- Witness for claim C8 at a truthy token and an unexpired
timestamp. -/
theorem claim_C8_witness :
    isAuthenticated ⟨some "x", some "0", none⟩ 0 = (true, ⟨some "x", some "0", none⟩) :=
  ((claim_C8 ⟨some "x", some "0", none⟩ 0).2.2.1 0 (by decide) (by decide)
    (by decide)).2 (by decide)

/-! ## Theorems: AuthService.authenticate -/

/-- Claim C9: `authenticate` returns a failure result with an error and
consults the network oracle in no way when the username trims to empty,
the email trims to empty, or the trimmed email fails the pattern; and
for a rejected fetch or an unparseable body it returns a failure result
with an error instead of throwing, leaving the storage unchanged. -/
theorem claim_C9 (u e : String) (net net2 : NetOutcome) (now now2 : Int)
    (st : SessionStorage) :
    (validationFails u e →
      (authenticate u e net now st).1.success = false
      ∧ ((authenticate u e net now st).1.error).isSome = true
      ∧ authenticate u e net now st = authenticate u e net2 now2 st
      ∧ (authenticate u e net now st).2 = st)
    ∧ (netFails net →
      (authenticate u e net now st).1.success = false
      ∧ ((authenticate u e net now st).1.error).isSome = true
      ∧ (authenticate u e net now st).2 = st) := by
  constructor
  · intro hv
    rcases hv with h | h | h
    · simp [authenticate, h]
    · by_cases h1 : trimJS u = "" <;> simp [authenticate, h1, h]
    · simp only [String.toList] at h
      by_cases h1 : trimJS u = "" <;> by_cases h2 : trimJS e = "" <;>
        simp [authenticate, h1, h2, h]
  · intro hn
    rcases hn with h | h | h <;> subst h <;>
      by_cases h1 : trimJS u = "" <;> by_cases h2 : trimJS e = "" <;>
      by_cases h3 : emailPatternTest (trimJS e).data = false <;>
      simp [authenticate, h1, h2, h3]

/-- Witness for claim C9 at a whitespace-only username. -/
theorem claim_C9_witness :
    (authenticate " " "a@b.co" (NetOutcome.okJson none none) 0 ⟨none, none, none⟩).1.success
      = false
    ∧ ((authenticate " " "a@b.co" (NetOutcome.okJson none none) 0
        ⟨none, none, none⟩).1.error).isSome = true
    ∧ authenticate " " "a@b.co" (NetOutcome.okJson none none) 0 ⟨none, none, none⟩ =
        authenticate " " "a@b.co" NetOutcome.fetchThrow 1 ⟨none, none, none⟩
    ∧ (authenticate " " "a@b.co" (NetOutcome.okJson none none) 0 ⟨none, none, none⟩).2 =
        ⟨none, none, none⟩ :=
  (claim_C9 " " "a@b.co" (NetOutcome.okJson none none) NetOutcome.fetchThrow 0 1
    ⟨none, none, none⟩).1 (Or.inl (by decide))

/-! ## Theorems: scheduler-core helper lemmas -/

theorem clamp01_nonneg (q : Rat) : 0 ≤ clamp01 q := by
  unfold clamp01
  by_cases h1 : q ≤ 0
  · rw [if_pos h1]
  · rw [if_neg h1]
    by_cases h2 : 1 ≤ q
    · rw [if_pos h2]
      norm_num
    · rw [if_neg h2]
      exact le_of_not_le h1

theorem clamp01_le_one (q : Rat) : clamp01 q ≤ 1 := by
  unfold clamp01
  by_cases h1 : q ≤ 0
  · rw [if_pos h1]
    norm_num
  · rw [if_neg h1]
    by_cases h2 : 1 ≤ q
    · rw [if_pos h2]
    · rw [if_neg h2]
      exact le_of_not_le h2

theorem progMax_left (a b : Rat) : a ≤ progMax a b := by
  unfold progMax
  by_cases h : a ≤ b
  · rw [if_pos h]
    exact h
  · rw [if_neg h]

theorem progMax_bound {a b : Rat} (ha0 : 0 ≤ a) (ha1 : a ≤ 1) (hb0 : 0 ≤ b)
    (hb1 : b ≤ 1) : 0 ≤ progMax a b ∧ progMax a b ≤ 1 := by
  unfold progMax
  by_cases h : a ≤ b
  · rw [if_pos h]
    exact ⟨hb0, hb1⟩
  · rw [if_neg h]
    exact ⟨ha0, ha1⟩

theorem find?_id_mem {l : List TaskRecord}
    (hpw : l.Pairwise (fun a b => a.id ≠ b.id)) {r : TaskRecord} (hr : r ∈ l) :
    l.find? (fun x => x.id == r.id) = some r := by
  induction l with
  | nil => cases hr
  | cons a t ih =>
    rcases List.pairwise_cons.mp hpw with ⟨ha, ht⟩
    rcases List.mem_cons.mp hr with h | h
    · subst h
      simp [List.find?]
    · rw [List.find?_cons_of_neg _ (by simp [ha r h])]
      exact ih ht h

theorem findTask_mem {s : SchedState}
    (hpw : s.registry.Pairwise (fun a b => a.id ≠ b.id))
    {r : TaskRecord} (hr : r ∈ s.registry) : findTask s r.id = some r :=
  find?_id_mem hpw hr

theorem findTask_id {s : SchedState} {id : Nat} {r : TaskRecord}
    (h : findTask s id = some r) : r.id = id ∧ r ∈ s.registry := by
  have hm := List.mem_of_find?_eq_some h
  have hp := List.find?_some h
  simp only [beq_iff_eq] at hp
  exact ⟨hp, hm⟩

theorem findTask_mapTask {f : TaskRecord → TaskRecord} (hid : ∀ r, (f r).id = r.id)
    (s : SchedState) (id : Nat) :
    findTask (mapTask s f) id = (findTask s id).map f := by
  unfold findTask mapTask
  have hpred : ((fun r : TaskRecord => r.id == id) ∘ f) =
      (fun r : TaskRecord => r.id == id) := by
    funext r
    simp [Function.comp, hid]
  rw [List.find?_map, hpred]

theorem GoodF.not_terminal {f : TaskRecord → TaskRecord} (hf : GoodF f)
    {r : TaskRecord} (hnt : (f r).status.isTerminal = false) :
    r.status.isTerminal = false := by
  cases hx : r.status.isTerminal with
  | false => rfl
  | true =>
    rw [hf.term_fix r hx, hx] at hnt
    exact absurd hnt (by decide)

theorem inv_mapTask {f : TaskRecord → TaskRecord} (hf : GoodF f) {s : SchedState}
    (hs : Inv s) : Inv (mapTask s f) := by
  obtain ⟨hpw, hlt, hpr, hlink⟩ := hs
  refine ⟨?_, ?_, ?_, ?_⟩
  · simp only [mapTask]
    rw [List.pairwise_map]
    refine hpw.imp ?_
    intro a b hab
    rw [hf.id_eq, hf.id_eq]
    exact hab
  · intro r hr
    simp only [mapTask] at hr ⊢
    rcases List.mem_map.mp hr with ⟨x, hx, rfl⟩
    rw [hf.id_eq]
    exact hlt x hx
  · intro r hr
    simp only [mapTask] at hr
    rcases List.mem_map.mp hr with ⟨x, hx, rfl⟩
    exact hf.prog_bound x (hpr x hx).1 (hpr x hx).2
  · intro r hr hnt
    simp only [mapTask] at hr ⊢
    rcases List.mem_map.mp hr with ⟨x, hx, rfl⟩
    rw [hf.id_eq, hf.type_eq]
    exact hlink x hx (hf.not_terminal hnt)

theorem goodF_reportF (id : Nat) (p : Rat) (msg : String) :
    GoodF (reportF id p msg) := by
  refine ⟨?_, ?_, ?_, ?_, ?_⟩
  · intro r; unfold reportF; split <;> rfl
  · intro r; unfold reportF; split <;> rfl
  · intro r; unfold reportF; split
    · exact progMax_left _ _
    · exact le_rfl
  · intro r h0 h1; unfold reportF; split
    · exact progMax_bound h0 h1 (clamp01_nonneg p) (clamp01_le_one p)
    · exact ⟨h0, h1⟩
  · intro r ht; unfold reportF; split
    · rename_i hc
      rw [hc.2] at ht
      exact absurd ht (by decide)
    · rfl

theorem goodF_beginF (id now : Nat) : GoodF (beginF id now) := by
  refine ⟨?_, ?_, ?_, ?_, ?_⟩
  · intro r; unfold beginF; split <;> rfl
  · intro r; unfold beginF; split <;> rfl
  · intro r; unfold beginF; split <;> exact le_rfl
  · intro r h0 h1; unfold beginF; split <;> exact ⟨h0, h1⟩
  · intro r ht; unfold beginF; split
    · rename_i hc
      rw [hc.2] at ht
      exact absurd ht (by decide)
    · rfl

theorem goodF_completeF (id : Nat) (res : String) (now : Nat) :
    GoodF (completeF id res now) := by
  refine ⟨?_, ?_, ?_, ?_, ?_⟩
  · intro r; unfold completeF; split <;> rfl
  · intro r; unfold completeF; split <;> rfl
  · intro r; unfold completeF; split <;> exact le_rfl
  · intro r h0 h1; unfold completeF; split <;> exact ⟨h0, h1⟩
  · intro r ht; unfold completeF; split
    · rename_i hc
      rw [hc.2] at ht
      exact absurd ht (by decide)
    · rfl

theorem goodF_failF (id : Nat) (err : String) (now : Nat) :
    GoodF (failF id err now) := by
  refine ⟨?_, ?_, ?_, ?_, ?_⟩
  · intro r; unfold failF; split <;> rfl
  · intro r; unfold failF; split <;> rfl
  · intro r; unfold failF; split <;> exact le_rfl
  · intro r h0 h1; unfold failF; split <;> exact ⟨h0, h1⟩
  · intro r ht; unfold failF; split
    · rename_i hc
      rw [hc.2] at ht
      exact absurd ht (by decide)
    · rfl

theorem goodF_cancelFlagF (id : Nat) : GoodF (cancelFlagF id) := by
  refine ⟨?_, ?_, ?_, ?_, ?_⟩
  · intro r; unfold cancelFlagF; split <;> rfl
  · intro r; unfold cancelFlagF; split <;> rfl
  · intro r; unfold cancelFlagF; split <;> exact le_rfl
  · intro r h0 h1; unfold cancelFlagF; split <;> exact ⟨h0, h1⟩
  · intro r ht; unfold cancelFlagF; split
    · rename_i hc
      rw [hc.2] at ht
      exact absurd ht (by decide)
    · rfl

theorem goodF_observeCancelF (id now : Nat) : GoodF (observeCancelF id now) := by
  refine ⟨?_, ?_, ?_, ?_, ?_⟩
  · intro r; unfold observeCancelF; split <;> rfl
  · intro r; unfold observeCancelF; split <;> rfl
  · intro r; unfold observeCancelF; split <;> exact le_rfl
  · intro r h0 h1; unfold observeCancelF; split <;> exact ⟨h0, h1⟩
  · intro r ht; unfold observeCancelF; split
    · rename_i hc
      rw [hc.2.1] at ht
      exact absurd ht (by decide)
    · rfl

theorem goodF_watchdogF (id maxRuntime now : Nat) :
    GoodF (watchdogF id maxRuntime now) := by
  refine ⟨?_, ?_, ?_, ?_, ?_⟩
  · intro r; unfold watchdogF; split <;> rfl
  · intro r; unfold watchdogF; split <;> rfl
  · intro r; unfold watchdogF; split <;> exact le_rfl
  · intro r h0 h1; unfold watchdogF; split <;> exact ⟨h0, h1⟩
  · intro r ht; unfold watchdogF; split
    · rename_i hc
      rw [ht] at hc
      exact absurd hc.2.1 (by decide)
    · rfl

theorem inv_tryStart {s : SchedState} (hs : Inv s) (ty : JobType) (now : Nat) :
    Inv (tryStart s ty now).2 := by
  obtain ⟨hpw, hlt, hpr, hlink⟩ := hs
  unfold tryStart
  cases ha : slotActive s ty with
  | true =>
    simp only [ha, if_true]
    exact ⟨hpw, hlt, hpr, hlink⟩
  | false =>
    simp only [ha, Bool.false_eq_true, if_false]
    refine ⟨?_, ?_, ?_, ?_⟩
    · rw [List.pairwise_cons]
      constructor
      · intro b hb
        have := hlt b hb
        simp only [newTask]
        omega
      · exact hpw
    · intro r hr
      dsimp only at hr ⊢
      rcases List.mem_cons.mp hr with h | h
      · subst h
        simp [newTask]
      · have := hlt r h
        omega
    · intro r hr
      dsimp only at hr
      rcases List.mem_cons.mp hr with h | h
      · subst h
        simp [newTask]
      · exact hpr r h
    · intro r hr hnt
      dsimp only at hr ⊢
      rcases List.mem_cons.mp hr with h | h
      · subst h
        simp [newTask, Function.update_same]
      · by_cases hty : r.type = ty
        · exfalso
          have hcur := hlink r h hnt
          rw [hty] at hcur
          have hfind : findTask s r.id = some r := findTask_mem hpw h
          have hact : slotActive s ty = true := by
            simp [slotActive, hcur, hfind, hnt]
          rw [hact] at ha
          exact absurd ha (by decide)
        · rw [Function.update_noteq hty]
          exact hlink r h hnt

theorem inv_update_slot {s : SchedState} (hs : Inv s) (ty : JobType)
    (sl : SchedulerSlot) (hcur : sl.current_task_id = (s.slots ty).current_task_id) :
    Inv { s with slots := Function.update s.slots ty sl } := by
  obtain ⟨hpw, hlt, hpr, hlink⟩ := hs
  refine ⟨hpw, hlt, hpr, ?_⟩
  intro r hr hnt
  dsimp only at hr ⊢
  by_cases hty : r.type = ty
  · rw [hty, Function.update_same, hcur, ← hty]
    exact hlink r hr hnt
  · rw [Function.update_noteq hty]
    exact hlink r hr hnt

theorem inv_tickType {s : SchedState} (hs : Inv s) (ty : JobType) (now nextAt : Nat) :
    Inv (tickType s ty now nextAt) := by
  unfold tickType
  split
  · exact inv_update_slot (inv_tryStart hs ty now) ty _ rfl
  · exact hs

theorem inv_setEnabledState {s : SchedState} (hs : Inv s) (ty : JobType) (b : Bool) :
    Inv (setEnabledState s ty b) :=
  inv_update_slot hs ty _ rfl

theorem inv_stopByType {s : SchedState} (hs : Inv s) (ty : JobType) :
    Inv (stopByType s ty).2 := by
  unfold stopByType
  split
  · exact hs
  · split
    · exact hs
    · split
      · exact inv_mapTask (goodF_cancelFlagF _) hs
      · exact hs

theorem inv_stopById {s : SchedState} (hs : Inv s) (id : Nat) :
    Inv (stopById s id).2 := by
  unfold stopById
  split
  · exact hs
  · split
    · exact inv_mapTask (goodF_cancelFlagF _) hs
    · exact hs

theorem inv_applyOp {s : SchedState} (hs : Inv s) (o : Op) : Inv (applyOp s o) := by
  cases o with
  | tick ty now nextAt => exact inv_tickType hs ty now nextAt
  | manualStart ty now => exact inv_tryStart hs ty now
  | beginExecution id now => exact inv_mapTask (goodF_beginF id now) hs
  | report id p msg => exact inv_mapTask (goodF_reportF id p msg) hs
  | complete id res now => exact inv_mapTask (goodF_completeF id res now) hs
  | jobFail id err now => exact inv_mapTask (goodF_failF id err now) hs
  | stopType ty => exact inv_stopByType hs ty
  | stopTask id => exact inv_stopById hs id
  | observeCancel id now => exact inv_mapTask (goodF_observeCancelF id now) hs
  | watchdog id maxRuntime now => exact inv_mapTask (goodF_watchdogF id maxRuntime now) hs
  | setEnabled ty b => exact inv_setEnabledState hs ty b

theorem inv_init : Inv initState := by
  refine ⟨List.Pairwise.nil, ?_, ?_, ?_⟩ <;> intro r hr <;> exact absurd hr (List.not_mem_nil r)

theorem reachable_inv {s : SchedState} (h : Reachable s) : Inv s := by
  induction h with
  | init => exact inv_init
  | step s o hs ih => exact inv_applyOp ih o

theorem step_mapTask {f : TaskRecord → TaskRecord} (hf : GoodF f) {s : SchedState}
    {id : Nat} {r r2 : TaskRecord} (h1 : findTask s id = some r)
    (h2 : findTask (mapTask s f) id = some r2) :
    r.progress ≤ r2.progress ∧ (r.status.isTerminal = true → r2 = r) := by
  rw [findTask_mapTask hf.id_eq, h1] at h2
  simp only [Option.map_some'] at h2
  injection h2 with h2
  subst h2
  exact ⟨hf.prog_mono r, fun ht => hf.term_fix r ht⟩

theorem findTask_tryStart {s : SchedState} (hs : Inv s) (ty : JobType) (now : Nat)
    {id : Nat} {r : TaskRecord} (h : findTask s id = some r) :
    findTask (tryStart s ty now).2 id = some r := by
  obtain ⟨hpw, hlt, hpr, hlink⟩ := hs
  obtain ⟨hid, hmem⟩ := findTask_id h
  have hlt2 : r.id < s.nextId := hlt r hmem
  unfold tryStart
  cases ha : slotActive s ty with
  | true =>
    simp only [ha, if_true]
    exact h
  | false =>
    simp only [ha, Bool.false_eq_true, if_false]
    unfold findTask
    dsimp only
    have hne : ¬ ((newTask s.nextId ty now).id == id) = true := by
      simp [newTask]
      omega
    rw [show List.find? (fun x => x.id == id) (newTask s.nextId ty now :: s.registry)
        = List.find? (fun x => x.id == id) s.registry from
      List.find?_cons_of_neg _ hne]
    exact h

theorem findTask_tickType {s : SchedState} (hs : Inv s) (ty : JobType)
    (now nextAt : Nat) {id : Nat} {r : TaskRecord} (h : findTask s id = some r) :
    findTask (tickType s ty now nextAt) id = some r := by
  unfold tickType
  split
  · exact findTask_tryStart hs ty now h
  · exact h

theorem stopByType_state (s : SchedState) (ty : JobType) :
    (stopByType s ty).2 = s
    ∨ ∃ cid : Nat, (stopByType s ty).2 = mapTask s (cancelFlagF cid) := by
  unfold stopByType
  split
  · exact Or.inl rfl
  · split
    · exact Or.inl rfl
    · split
      · exact Or.inr ⟨_, rfl⟩
      · exact Or.inl rfl

theorem stopById_state (s : SchedState) (id : Nat) :
    (stopById s id).2 = s
    ∨ ∃ cid : Nat, (stopById s id).2 = mapTask s (cancelFlagF cid) := by
  unfold stopById
  split
  · exact Or.inl rfl
  · split
    · exact Or.inr ⟨_, rfl⟩
    · exact Or.inl rfl

theorem reach_sDemo1 : Reachable sDemo1 :=
  Reachable.step initState (Op.manualStart JobType.analysis 5) Reachable.init

theorem reach_sDemo2 : Reachable sDemo2 :=
  Reachable.step sDemo1 (Op.beginExecution 0 6) reach_sDemo1

theorem reach_sDemo3 : Reachable sDemo3 :=
  Reachable.step sDemo2 (Op.complete 0 "done" 7) reach_sDemo2

/-! ## Theorems: the claims on the scheduling core -/

/-- Claim C1: in every reachable scheduler state, for every job type at
most one TaskRecord of that type has status pending or running; every
observable operation preserves this single-flight property. -/
theorem claim_C1 (s : SchedState) (hs : Reachable s) (ty : JobType) :
    (activeOfType s ty).length ≤ 1 := by
  obtain ⟨hpw, hlt, hpr, hlink⟩ := reachable_inv hs
  cases hl : activeOfType s ty with
  | nil => simp
  | cons a t =>
    cases t with
    | nil => simp
    | cons b t2 =>
      exfalso
      have hfp : (activeOfType s ty).Pairwise (fun x y => x.id ≠ y.id) :=
        hpw.filter _
      rw [hl] at hfp
      have hab : a.id ≠ b.id := (List.pairwise_cons.mp hfp).1 b (by simp)
      have hmem : ∀ x ∈ activeOfType s ty,
          x ∈ s.registry ∧ x.type = ty ∧ x.status.isTerminal = false := by
        intro x hx
        rcases List.mem_filter.mp hx with ⟨hx1, hx2⟩
        simp only [Bool.and_eq_true, beq_iff_eq, Bool.not_eq_true'] at hx2
        exact ⟨hx1, hx2.1, hx2.2⟩
      have ha2 := hmem a (by rw [hl]; simp)
      have hb2 := hmem b (by rw [hl]; simp)
      have hca := hlink a ha2.1 ha2.2.2
      have hcb := hlink b hb2.1 hb2.2.2
      rw [ha2.2.1] at hca
      rw [hb2.2.1] at hcb
      rw [hca] at hcb
      injection hcb with hcb
      exact hab hcb

/-- Witness for claim C1 in the state holding one pending analysis
task. -/
theorem claim_C1_witness : (activeOfType sDemo1 JobType.analysis).length ≤ 1 :=
  claim_C1 sDemo1 reach_sDemo1 JobType.analysis

/-- Claim C2: in every reachable scheduler state every progress value
lies in the unit interval, and across any observable operation the
progress of a surviving record never decreases while a record that is
already terminal does not change at all. -/
theorem claim_C2 (s : SchedState) (hs : Reachable s) :
    (∀ r ∈ s.registry, 0 ≤ r.progress ∧ r.progress ≤ 1)
    ∧ (∀ (o : Op) (id : Nat) (r r2 : TaskRecord),
        findTask s id = some r → findTask (applyOp s o) id = some r2 →
        r.progress ≤ r2.progress ∧ (r.status.isTerminal = true → r2 = r)) := by
  have hinv := reachable_inv hs
  refine ⟨hinv.2.2.1, ?_⟩
  intro o id r r2 h1 h2
  have same : findTask s id = some r2 →
      r.progress ≤ r2.progress ∧ (r.status.isTerminal = true → r2 = r) := by
    intro h3
    rw [h1] at h3
    injection h3 with h3
    subst h3
    exact ⟨le_rfl, fun _ => rfl⟩
  cases o with
  | tick ty now nextAt =>
    simp only [applyOp] at h2
    rw [findTask_tickType hinv ty now nextAt h1] at h2
    injection h2 with h2
    subst h2
    exact ⟨le_rfl, fun _ => rfl⟩
  | manualStart ty now =>
    simp only [applyOp] at h2
    rw [findTask_tryStart hinv ty now h1] at h2
    injection h2 with h2
    subst h2
    exact ⟨le_rfl, fun _ => rfl⟩
  | beginExecution id2 now =>
    exact step_mapTask (goodF_beginF id2 now) h1 h2
  | report id2 p msg =>
    exact step_mapTask (goodF_reportF id2 p msg) h1 h2
  | complete id2 res now =>
    exact step_mapTask (goodF_completeF id2 res now) h1 h2
  | jobFail id2 err now =>
    exact step_mapTask (goodF_failF id2 err now) h1 h2
  | stopType ty =>
    simp only [applyOp] at h2
    rcases stopByType_state s ty with hst | ⟨cid, hst⟩
    · rw [hst] at h2
      exact same h2
    · rw [hst] at h2
      exact step_mapTask (goodF_cancelFlagF cid) h1 h2
  | stopTask id2 =>
    simp only [applyOp] at h2
    rcases stopById_state s id2 with hst | ⟨cid, hst⟩
    · rw [hst] at h2
      exact same h2
    · rw [hst] at h2
      exact step_mapTask (goodF_cancelFlagF cid) h1 h2
  | observeCancel id2 now =>
    exact step_mapTask (goodF_observeCancelF id2 now) h1 h2
  | watchdog id2 maxRuntime now =>
    exact step_mapTask (goodF_watchdogF id2 maxRuntime now) h1 h2
  | setEnabled ty b =>
    exact same h2

/-- Witness for claim C2 across a progress report of one on the
running demonstration task. -/
theorem claim_C2_witness :
    rDemoRunning.progress ≤ rDemoReported.progress
    ∧ (rDemoRunning.status.isTerminal = true → rDemoReported = rDemoRunning) :=
  (claim_C2 sDemo2 reach_sDemo2).2 (Op.report 0 1 "almost done") 0
    rDemoRunning rDemoReported (by decide) (by decide)

/-- Claim C3: when the slot of a type holds a non-terminal TaskRecord,
a start request for that type returns the conflict result and leaves
the whole state — registry and slots — unchanged. -/
theorem claim_C3 (s : SchedState) (ty : JobType) (now : Nat) (id : Nat)
    (r : TaskRecord)
    (hid : (s.slots ty).current_task_id = some id)
    (hr : findTask s id = some r)
    (hnt : r.status.isTerminal = false) :
    tryStart s ty now = (StartResult.alreadyRunning, s) := by
  have ha : slotActive s ty = true := by
    simp [slotActive, hid, hr, hnt]
  simp [tryStart, ha]

/-- Witness for claim C3 against the occupied analysis slot of the
demonstration state. -/
theorem claim_C3_witness :
    tryStart sDemo2 JobType.analysis 99 = (StartResult.alreadyRunning, sDemo2) :=
  claim_C3 sDemo2 JobType.analysis 99 0 rDemoRunning (by decide) (by decide) (by decide)

/-- Claim C4: in every reachable state, when a started, non-terminal
task has outlived its maximum runtime, the watchdog operation marks it
failed with a timeout error and its slot stops being occupied. -/
theorem claim_C4 (s : SchedState) (hs : Reachable s) (id maxRuntime now t0 : Nat)
    (r : TaskRecord)
    (hr : findTask s id = some r)
    (hnt : r.status.isTerminal = false)
    (hst : r.started_at = some t0)
    (hel : t0 + maxRuntime ≤ now) :
    taskStatus (applyOp s (Op.watchdog id maxRuntime now)) id = some Status.failed
    ∧ taskError (applyOp s (Op.watchdog id maxRuntime now)) id = some (some "timeout")
    ∧ slotActive (applyOp s (Op.watchdog id maxRuntime now)) r.type = false := by
  obtain ⟨hpw, hlt, hpr, hlink⟩ := reachable_inv hs
  obtain ⟨hid, hmem⟩ := findTask_id hr
  have hto : timedOut maxRuntime now r = true := by
    unfold timedOut
    rw [hst]
    simp [hel]
  have hF : watchdogF id maxRuntime now r =
      { r with status := Status.failed, error := some "timeout",
               completed_at := some now } := by
    unfold watchdogF
    rw [if_pos ⟨hid, hnt, hto⟩]
  have hfind2 : findTask (applyOp s (Op.watchdog id maxRuntime now)) id =
      some (watchdogF id maxRuntime now r) := by
    simp only [applyOp]
    rw [findTask_mapTask (goodF_watchdogF id maxRuntime now).id_eq, hr]
    rfl
  have hcur := hlink r hmem hnt
  rw [hid] at hcur
  refine ⟨?_, ?_, ?_⟩
  · unfold taskStatus
    rw [hfind2, hF]
    rfl
  · unfold taskError
    rw [hfind2, hF]
    rfl
  · have hslots : (applyOp s (Op.watchdog id maxRuntime now)).slots = s.slots := rfl
    simp [slotActive, hslots, hcur, hfind2, hF, Status.isTerminal]

/-- Witness for claim C4: the watchdog fires on the running
demonstration task at time 100 with a budget of 10 time units. -/
theorem claim_C4_witness :
    taskStatus (applyOp sDemo2 (Op.watchdog 0 10 100)) 0 = some Status.failed
    ∧ taskError (applyOp sDemo2 (Op.watchdog 0 10 100)) 0 = some (some "timeout")
    ∧ slotActive (applyOp sDemo2 (Op.watchdog 0 10 100)) rDemoRunning.type = false :=
  claim_C4 sDemo2 reach_sDemo2 0 10 100 6 rDemoRunning
    (by decide) (by decide) (by decide) (by decide)

/-- Claim C5: in every reachable state, a registry update addressed to
a record whose status is terminal changes nothing at all (and, the
function being total, cannot throw). -/
theorem claim_C5 (s : SchedState) (hs : Reachable s) (id : Nat) (r : TaskRecord)
    (u : TaskUpdate) (hr : findTask s id = some r)
    (ht : r.status.isTerminal = true) :
    updateTask s id u = s := by
  obtain ⟨hpw, hlt, hpr, hlink⟩ := reachable_inv hs
  obtain ⟨hid, hmem⟩ := findTask_id hr
  have hsym : Symmetric (fun a b : TaskRecord => a.id ≠ b.id) := by
    intro a b hab hba
    exact hab hba.symm
  have hcongr : ∀ x ∈ s.registry,
      (if x.id = id then applyUpdate x u else x) = x := by
    intro x hx
    by_cases hxid : x.id = id
    · have hxr : x = r := by
        by_contra hne
        exact (hpw.forall hsym hx hmem hne) (hxid.trans hid.symm)
      rw [if_pos hxid, hxr]
      unfold applyUpdate
      rw [if_pos ht]
    · rw [if_neg hxid]
  have hmap : s.registry.map (fun x => if x.id = id then applyUpdate x u else x)
      = s.registry := by
    rw [List.map_congr_left hcongr]
    simp
  unfold updateTask
  rw [hmap]

/-- Witness for claim C5: a late update on the completed demonstration
task leaves the state untouched. -/
theorem claim_C5_witness : updateTask sDemo3 0 uDemo = sDemo3 :=
  claim_C5 sDemo3 reach_sDemo3 0 rDemoDone uDemo (by decide) (by decide)

/-- Claim C6: a stop request whose target is an idle slot, a terminal
current task or a pending target reports nothing to stop, a nonexistent
id reports not found, and in each of these cases the state is returned
unchanged. -/
theorem claim_C6 (s : SchedState) (ty : JobType) (id : Nat) (r : TaskRecord) :
    ((s.slots ty).current_task_id = none →
      stopByType s ty = (StopResult.nothingToStop, s))
    ∧ (∀ cid : Nat, (s.slots ty).current_task_id = some cid →
        findTask s cid = some r →
        r.status.isTerminal = true ∨ r.status = Status.pending →
        stopByType s ty = (StopResult.nothingToStop, s))
    ∧ (findTask s id = some r →
        r.status.isTerminal = true ∨ r.status = Status.pending →
        stopById s id = (StopResult.nothingToStop, s))
    ∧ (findTask s id = none → stopById s id = (StopResult.notFound, s)) := by
  have hnr : ∀ rr : TaskRecord,
      rr.status.isTerminal = true ∨ rr.status = Status.pending →
      ¬ rr.status = Status.running := by
    intro rr h hrun
    rcases h with h | h <;> rw [hrun] at h <;> exact absurd h (by decide)
  refine ⟨?_, ?_, ?_, ?_⟩
  · intro h
    simp [stopByType, h]
  · intro cid hcid hfind hterm
    simp [stopByType, hcid, hfind, hnr r hterm]
  · intro hfind hterm
    simp [stopById, hfind, hnr r hterm]
  · intro h
    simp [stopById, h]

/-- Witness for claim C6 against an idle slot, a pending target, a
completed target and an unknown id. -/
theorem claim_C6_witness :
    stopByType initState JobType.analysis = (StopResult.nothingToStop, initState)
    ∧ stopByType sDemo1 JobType.analysis = (StopResult.nothingToStop, sDemo1)
    ∧ stopById sDemo3 0 = (StopResult.nothingToStop, sDemo3)
    ∧ stopById initState 5 = (StopResult.notFound, initState) :=
  ⟨(claim_C6 initState JobType.analysis 0 rDemoDone).1 (by decide),
   (claim_C6 sDemo1 JobType.analysis 0 rDemoPending).2.1 0 (by decide) (by decide)
     (Or.inr (by decide)),
   (claim_C6 sDemo3 JobType.analysis 0 rDemoDone).2.2.1 (by decide)
     (Or.inl (by decide)),
   (claim_C6 initState JobType.analysis 5 rDemoDone).2.2.2 (by decide)⟩

/-- Claim C7: a disabled type is skipped by the scheduler tick; the
enabled toggle changes no registry entry, no slot time and no slot
occupancy; the decision of a manual start request is indifferent to
the flag; and an enabled, due, idle type is started by the tick with
its slot times advanced. -/
theorem claim_C7 (s : SchedState) (ty : JobType) (now nextAt : Nat) (b : Bool) :
    ((s.slots ty).enabled = false → tickType s ty now nextAt = s)
    ∧ (setEnabledState s ty b).registry = s.registry
    ∧ ((setEnabledState s ty b).slots ty).next_run_at = (s.slots ty).next_run_at
    ∧ ((setEnabledState s ty b).slots ty).current_task_id
        = (s.slots ty).current_task_id
    ∧ (tryStart (setEnabledState s ty b) ty now).1 = (tryStart s ty now).1
    ∧ ((s.slots ty).enabled = true → (s.slots ty).next_run_at ≤ now →
        slotActive s ty = false →
        (tickType s ty now nextAt).registry = newTask s.nextId ty now :: s.registry
        ∧ ((tickType s ty now nextAt).slots ty).next_run_at = nextAt
        ∧ ((tickType s ty now nextAt).slots ty).last_run_at = some now) := by
  have hsa : slotActive (setEnabledState s ty b) ty = slotActive s ty := by
    simp [slotActive, setEnabledState, Function.update_same, findTask]
  refine ⟨?_, rfl, ?_, ?_, ?_, ?_⟩
  · intro h
    simp [tickType, h]
  · simp [setEnabledState, Function.update_same]
  · simp [setEnabledState, Function.update_same]
  · cases ha : slotActive s ty with
    | true =>
      unfold tryStart
      rw [hsa, ha]
      rfl
    | false =>
      unfold tryStart
      rw [hsa, ha]
      rfl
  · intro h1 h2 h3
    unfold tickType
    rw [if_pos ⟨h1, h2, h3⟩]
    refine ⟨?_, ?_, ?_⟩
    · simp [tryStart, h3]
    · simp [tryStart, h3, Function.update_same]
    · simp [tryStart, h3, Function.update_same]

/-- Witness for claim C7: a disabled tick is skipped, and an enabled
due tick on the fresh state starts one analysis task and advances the
slot times. -/
theorem claim_C7_witness :
    (tickType sDis JobType.analysis 99 120 = sDis)
    ∧ ((tickType initState JobType.analysis 99 120).registry
        = newTask 0 JobType.analysis 99 :: ([] : List TaskRecord))
    ∧ ((tickType initState JobType.analysis 99 120).slots JobType.analysis).next_run_at
        = 120 :=
  ⟨(claim_C7 sDis JobType.analysis 99 120 false).1 (by decide),
   ((claim_C7 initState JobType.analysis 99 120 false).2.2.2.2.2
     (by decide) (by decide) (by decide)).1,
   ((claim_C7 initState JobType.analysis 99 120 false).2.2.2.2.2
     (by decide) (by decide) (by decide)).2.1⟩

end CryptoAnalysis
